import Mathlib

/-!
Verification of the bearer-token authentication pipeline, the outbound token
exchange subsystem, and the per-request context propagation of the
`descope/mcp-express` repository, as a shallow embedding in Lean 4.

The embedding follows the TypeScript sources:
* `src/middleware/bearerAuth.ts` — header parsing, `verifyAccessToken`,
  `handleAuthError`;
* `src/utils/requestContext.ts` — `attachRequestContext` / `getRequestContext`;
* `src/handlers/mcpServer.ts` — `createMcpServerHandler` (context attachment);
* `src/utils.ts` — `registerAuthenticatedTool` (the wrapped tool body);
* `src/utils/outboundToken.ts` — `extractUserIdFromAuthInfo`,
  `getOutboundToken`;
* `mcp-core/src/outbound.ts` — `getOutboundToken`, `DescopeTokenManager`;
* `mcp-core/src/scopes.ts` — `validateScopes`, `hasScope`, `hasAnyScope`,
  `hasAllScopes`.

Asynchronous calls to the external authority (`descope.validateSession`,
`outboundApplication.fetchToken` / `fetchTokenByScopes`) are modelled by
passing the call outcome as an explicit argument; thrown JavaScript
exceptions are modelled by `Except` / explicit outcome constructors.
-/

set_option autoImplicit false
set_option linter.unusedVariables false

/-- Decidable equality of `Except` values, used only to evaluate the model
on concrete inputs. -/
instance {ε α : Type} [DecidableEq ε] [DecidableEq α] : DecidableEq (Except ε α)
  | .ok a, .ok b =>
    if h : a = b then .isTrue (by rw [h]) else .isFalse (by simp [h])
  | .error a, .error b =>
    if h : a = b then .isTrue (by rw [h]) else .isFalse (by simp [h])
  | .ok _, .error _ => .isFalse (by simp)
  | .error _, .ok _ => .isFalse (by simp)

namespace DescopeMcp

/-- A JWT claim value that may be a scalar string or an array of strings
(the `aud` and `resource` claims in `bearerAuth.ts` are typed
`string | string[]`). -/
inductive ClaimValue where
  | scalar (s : String)
  | array (ss : List String)
  deriving DecidableEq, Repr

/-- Models `Array.isArray(v) ? v.includes(x) : v === x` used for the audience
check (bearerAuth.ts lines 75-77) and the resource check (lines 118-120). -/
def ClaimValue.containsValue : ClaimValue → String → Bool
  | .scalar s, v => s == v
  | .array ss, v => ss.contains v

/-- The claims object of a successfully validated session
(`authInfo.token` as consumed by `verifyAccessToken` in bearerAuth.ts:
`aud`, `scope`, `resource`, `azp`, `exp`). -/
structure SessionToken where
  aud : Option ClaimValue
  scope : Option String
  resource : Option ClaimValue
  azp : String
  exp : Nat
  deriving DecidableEq, Repr

/-- The value resolved by `provider.descope.validateSession(token)`:
the raw JWT echo and the claims object. -/
structure SessionAuthInfo where
  jwt : String
  token : SessionToken
  deriving DecidableEq, Repr

/-- Outcome of the `validateSession` call: either it resolves with claims or
it rejects/throws (any rejection is handled by the `.catch` in
bearerAuth.ts lines 63-65). -/
inductive ValidateOutcome where
  | ok (info : SessionAuthInfo)
  | failed
  deriving DecidableEq, Repr

/-- The `verifyTokenOptions` of the provider (audience, requiredScopes,
resourceIndicator), each optional. -/
structure VerifyTokenOptions where
  audience : Option String := none
  requiredScopes : Option (List String) := none
  resourceIndicator : Option String := none
  deriving DecidableEq, Repr

/-- The canonical `AuthInfo` record of the express package
(`token`, `clientId`, `scopes`, `expiresAt`), as produced by
`AuthInfoSchema.parse` at the end of `verifyAccessToken`. -/
structure AuthInfo where
  token : String
  clientId : String
  scopes : List String
  expiresAt : Nat
  deriving DecidableEq, Repr

/-- Structured authentication failure: the middleware throws
`InvalidTokenError(message)` or `InsufficientScopeError(message)`; the
insufficient-scope message is built from the missing scopes and the caller
scopes, which we keep structured. -/
inductive AuthError where
  | invalidToken (message : String)
  | insufficientScope (missing : List String) (userScopes : List String)
  deriving DecidableEq, Repr

/-- Splits a character list at every occurrence of the separator, keeping
empty groups, as JavaScript `String.prototype.split` does on a one-character
separator (`"".split(sep)` gives `[""]`). -/
def splitOnChar (sep : Char) : List Char → List (List Char)
  | [] => [[]]
  | c :: rest =>
    if c = sep then [] :: splitOnChar sep rest
    else
      match splitOnChar sep rest with
      | [] => [[c]]
      | g :: gs => (c :: g) :: gs

/-- Models JavaScript `s.split(sep)` for a one-character separator. -/
def jsSplit (s : String) (sep : Char) : List String :=
  (splitOnChar sep s.data).map String.mk

/-- Models JavaScript `s.toLowerCase()` on ASCII strings. -/
def jsToLower (s : String) : String :=
  String.mk (s.data.map Char.toLower)

/-- Models `scope ? scope.split(" ").filter(Boolean) : []`
(bearerAuth.ts lines 87-88). -/
def parseScopeClaim : Option String → List String
  | none => []
  | some s => if s = "" then [] else (jsSplit s ' ').filter (fun t => t ≠ "")

/-- Models `requiredScopes.filter((scope) => !scopes.includes(scope))`
(bearerAuth.ts line 93; the identical expression appears in the tool
binder, utils.ts line 181). -/
def missingScopesOf (required scopes : List String) : List String :=
  required.filter (fun s => ! scopes.contains s)

/-- Models `scopes.join(", ") || "none"` (bearerAuth.ts line 97). -/
def userScopesDisplay (scopes : List String) : String :=
  let j := String.intercalate ", " scopes
  if j = "" then "none" else j

/-- The `InsufficientScopeError` message built at bearerAuth.ts lines 98-102. -/
def insufficientScopeMessage (missing userScopes : List String) : String :=
  "Missing required scopes: " ++ String.intercalate ", " missing ++ ". " ++
    "User has scopes: " ++ userScopesDisplay userScopes ++ ". " ++
    "Check /.well-known/oauth-protected-resource for available scopes."

/-- The audience check of `verifyAccessToken` (bearerAuth.ts lines 68-84). -/
def checkAudience (info : SessionAuthInfo) (opts : VerifyTokenOptions) :
    Except AuthError Unit :=
  match opts.audience with
  | none => .ok ()
  | some audience =>
    match info.token.aud with
    | none => .error (.invalidToken "Token missing audience claim")
    | some tokenAudience =>
      if tokenAudience.containsValue audience then .ok ()
      else .error (.invalidToken ("Invalid token audience. Expected: " ++ audience))

/-- The required-scopes check of `verifyAccessToken`
(bearerAuth.ts lines 91-104): skipped when `requiredScopes?.length` is
falsy (absent or empty list), otherwise fails with the missing scopes. -/
def checkRequiredScopes (scopes : List String) (opts : VerifyTokenOptions) :
    Except AuthError Unit :=
  match opts.requiredScopes with
  | none => .ok ()
  | some required =>
    if required.isEmpty then .ok ()
    else
      let missing := missingScopesOf required scopes
      if missing.isEmpty then .ok ()
      else .error (.insufficientScope missing scopes)

/-- The resource-indicator check of `verifyAccessToken`
(bearerAuth.ts lines 107-127). -/
def checkResource (info : SessionAuthInfo) (opts : VerifyTokenOptions) :
    Except AuthError Unit :=
  match opts.resourceIndicator with
  | none => .ok ()
  | some indicator =>
    match info.token.resource with
    | none => .error (.invalidToken "Token missing resource claim")
    | some tokenResource =>
      if tokenResource.containsValue indicator then .ok ()
      else .error (.invalidToken ("Invalid token resource. Expected: " ++ indicator))

/-- `verifyAccessToken` (bearerAuth.ts lines 58-137), with the
`validateSession` outcome passed explicitly: verification failure is
normalized to `InvalidTokenError("Failed to validate token")`; then the
audience, required-scopes and resource checks run in source order; on
success the canonical `AuthInfo` is assembled from `jwt`, `azp`, the parsed
scopes and `exp`. -/
def verifyAccessToken (outcome : ValidateOutcome) (opts : VerifyTokenOptions) :
    Except AuthError AuthInfo :=
  match outcome with
  | .failed => .error (.invalidToken "Failed to validate token")
  | .ok info =>
    match checkAudience info opts with
    | .error e => .error e
    | .ok _ =>
      let scopes := parseScopeClaim info.token.scope
      match checkRequiredScopes scopes opts with
      | .error e => .error e
      | .ok _ =>
        match checkResource info opts with
        | .error e => .error e
        | .ok _ =>
          .ok { token := info.jwt
                clientId := info.token.azp
                scopes := scopes
                expiresAt := info.token.exp }

/-- The transport-visible part of the middleware response: status code,
the `error="…"` code of the `WWW-Authenticate` header, and its
`error_description`. -/
structure HttpResponse where
  status : Nat
  wwwAuthenticateError : Option String
  description : Option String
  deriving DecidableEq, Repr

/-- Modelled from the spec: the `errorCode` property of the error classes in
the repository file `errors.ts`, which is not among the provided sources
(only its importers are). Per the spec error table (§6) and the middleware
tests, `InvalidTokenError.errorCode = "invalid_token"` and
`InsufficientScopeError.errorCode = "insufficient_scope"`. -/
def AuthError.errorCode : AuthError → String
  | .invalidToken _ => "invalid_token"
  | .insufficientScope _ _ => "insufficient_scope"

/-- The thrown error message: `InvalidTokenError` carries the message it was
constructed with; `InsufficientScopeError` carries the message built at
bearerAuth.ts lines 98-102. -/
def AuthError.message : AuthError → String
  | .invalidToken m => m
  | .insufficientScope missing userScopes => insufficientScopeMessage missing userScopes

/-- `handleAuthError` (bearerAuth.ts lines 139-170) restricted to the two
error classes the middleware itself throws: `InvalidTokenError` is answered
with status 401 and `InsufficientScopeError` with status 403, both with a
`WWW-Authenticate: Bearer error="…", error_description="…"` header (the
header additionally carries a `resource_metadata` URL derived from the
provider's server URL, which no claim concerns). -/
def handleAuthError (e : AuthError) : HttpResponse :=
  match e with
  | .invalidToken _ =>
    { status := 401, wwwAuthenticateError := some e.errorCode, description := some e.message }
  | .insufficientScope _ _ =>
    { status := 403, wwwAuthenticateError := some e.errorCode, description := some e.message }

/-- An inbound express request as the middleware and the MCP handler see it:
the `Authorization` header, the `auth` property written by
`descopeMcpBearerAuth`, and the distinct `authInfo` property read by
`createMcpServerHandler`. -/
structure Request where
  authorization : Option String
  auth : Option AuthInfo := none
  authInfo : Option AuthInfo := none
  deriving DecidableEq, Repr

/-- Result of running the middleware: either it called `next()` with the
(updated) request, or it wrote an error response. -/
inductive MiddlewareResult where
  | next (req : Request)
  | respond (resp : HttpResponse)
  deriving DecidableEq, Repr

/-- The request handler returned by `descopeMcpBearerAuth`
(bearerAuth.ts lines 34-55): reject a missing header; destructure
`authHeader.split(" ")` into `[type, token]` and reject unless the scheme is
case-insensitively `bearer` and the token is non-empty; otherwise call
`verifyAccessToken` (whose first step is the `validateSession` authority
call), store the result on `req.auth` and call `next()`. The second
component records whether the authority's `validateSession` was called. -/
def descopeMcpBearerAuth (validate : String → ValidateOutcome)
    (opts : VerifyTokenOptions) (req : Request) : MiddlewareResult × Bool :=
  match req.authorization with
  | none =>
    (.respond (handleAuthError (.invalidToken "Missing Authorization header")), false)
  | some authHeader =>
    let parts := jsSplit authHeader ' '
    let schemeType := parts.headD ""
    let token := (parts[1]?).getD ""
    if jsToLower schemeType ≠ "bearer" ∨ token = "" then
      (.respond (handleAuthError
        (.invalidToken "Invalid Authorization header format, expected 'Bearer TOKEN'")), false)
    else
      match verifyAccessToken (validate token) opts with
      | .error e => (.respond (handleAuthError e), true)
      | .ok info => (.next { req with auth := some info }, true)

/-! ### Request-scoped context store (`src/utils/requestContext.ts`) -/

/-- The fields of `DescopeMcpProviderOptions` that the outbound token
exchange reads (`schemas/options.ts` itself is not among the claims'
concerns; `outboundToken.ts` reads `projectId` and `baseUrl`). -/
structure DescopeMcpProviderOptions where
  projectId : String
  baseUrl : Option String := none
  deriving DecidableEq, Repr

/-- `McpRequestContext` (requestContext.ts lines 8-13): the auth info of the
current request and the optional provider configuration. -/
structure McpRequestContext where
  authInfo : AuthInfo
  descopeConfig : Option DescopeMcpProviderOptions
  deriving DecidableEq, Repr

/-- The heap of per-server-instance context slots: `attachRequestContext`
writes `server[MCP_REQUEST_CONTEXT]`, a property keyed on the individual
server object, so the state is a map from server identity to an optional
context. -/
def ServerHeap := Nat → Option McpRequestContext

/-- The heap before any context was attached: every server's
`MCP_REQUEST_CONTEXT` slot is unset. -/
def emptyServerHeap : ServerHeap := fun _ => none

/-- `attachRequestContext(server, authInfo, descopeConfig)`
(requestContext.ts lines 31-40): sets the context slot of exactly the given
server instance. -/
def attachRequestContext (heap : ServerHeap) (server : Nat)
    (authInfo : AuthInfo) (descopeConfig : Option DescopeMcpProviderOptions) :
    ServerHeap :=
  fun s => if s = server then some { authInfo := authInfo, descopeConfig := descopeConfig }
           else heap s

/-- `getRequestContext(server)` (requestContext.ts lines 45-49): reads the
context slot of the given server instance. -/
def getRequestContext (heap : ServerHeap) (server : Nat) :
    Option McpRequestContext :=
  heap server

/-! ### MCP server handler (`src/handlers/mcpServer.ts`) -/

/-- The context-attachment step of the per-request handler body returned by
`createMcpServerHandler` (mcpServer.ts lines 52-65): a fresh `McpServer` is
created for the request, `req.authInfo` is read, and
`attachRequestContext` is called on the fresh server only when that
property is set. The returned heap is the heap after this step. -/
def createMcpServerHandlerStep (heap : ServerHeap) (server : Nat)
    (req : Request) (descopeConfig : Option DescopeMcpProviderOptions) :
    ServerHeap :=
  match req.authInfo with
  | some a => attachRequestContext heap server a descopeConfig
  | none => heap

/-! ### Authenticated tool binder (`src/utils.ts`) -/

/-- The failures thrown by the wrapped tool body of
`registerAuthenticatedTool` (utils.ts lines 164-210): the
authentication-required error when no context is attached, and the
insufficient-scope error carrying the tool name, the required scopes, the
missing scopes and the caller's scopes. -/
inductive ToolError where
  | authRequired (name : String)
  | insufficientScope (name : String) (required missing userScopes : List String)
  deriving DecidableEq, Repr

/-- The exact message strings of the two `throw new Error(...)` sites in the
wrapped tool body (utils.ts lines 172-174 and 186-191). -/
def ToolError.message : ToolError → String
  | .authRequired name =>
    "Authentication required for tool \"" ++ name ++
      "\". Ensure a valid bearer token is provided."
  | .insufficientScope name required missing userScopes =>
    "Tool \"" ++ name ++ "\" requires scopes: " ++ String.intercalate ", " required ++
      ". " ++ "User has scopes: " ++ userScopesDisplay userScopes ++ ". " ++
      "Missing: " ++ String.intercalate ", " missing ++ ". " ++
      "Request these scopes during authentication."

/-- The wrapped tool body installed by `registerAuthenticatedTool`
(utils.ts lines 164-210): read the request context from the server; throw
the authentication-required error when it is absent; when `requiredScopes`
is non-empty recompute the missing scopes exactly as the bearer gate does
and throw the insufficient-scope error when any are missing; otherwise call
the user handler and pass its result through. `handlerResult` stands for
the value the user handler would return; the second component records
whether the user handler was invoked. -/
def runAuthenticatedTool {α : Type} (name : String) (requiredScopes : List String)
    (context : Option McpRequestContext) (handlerResult : α) :
    Except ToolError α × Bool :=
  match context with
  | none => (.error (.authRequired name), false)
  | some ctx =>
    if requiredScopes.isEmpty then (.ok handlerResult, true)
    else
      let missing := missingScopesOf requiredScopes ctx.authInfo.scopes
      if missing.isEmpty then (.ok handlerResult, true)
      else
        (.error (.insufficientScope name requiredScopes missing ctx.authInfo.scopes), false)

/-! ### JWT payload decoding (`src/utils/outboundToken.ts`)

`extractUserIdFromAuthInfo` decodes the middle segment of the bearer JWT
with `Buffer.from(seg, "base64")` and `JSON.parse`.  We model the base64
decoder over both the standard and the url-safe alphabet (as Node's
decoder accepts), and `JSON.parse` with the full JSON grammar: objects,
arrays, strings with escape sequences, numbers, booleans, `null`, and
interleaved whitespace.  Two representability notes: a numeric literal is
carried verbatim rather than as a floating-point double (number identity
and extreme-exponent underflow are not modelled; a literal counts as zero,
hence falsy, exactly when its mantissa digits are all zero), and a
`\uXXXX` escape denoting a lone UTF-16 surrogate has no `Char`
counterpart and is treated as a parse failure. -/

/-- The double-quote, `\x7b` and `\x7d` characters, by code point. -/
def quoteChar : Char := Char.ofNat 34

/-- The opening-brace character of a JSON object. -/
def openBraceChar : Char := Char.ofNat 123

/-- The closing-brace character of a JSON object. -/
def closeBraceChar : Char := Char.ofNat 125

/-- The 6-bit value of one base64 character; `none` for characters outside
both alphabets (Node's decoder skips them). -/
def base64CharVal (c : Char) : Option Nat :=
  if 'A' ≤ c ∧ c ≤ 'Z' then some (c.toNat - 65)
  else if 'a' ≤ c ∧ c ≤ 'z' then some (c.toNat - 97 + 26)
  else if '0' ≤ c ∧ c ≤ '9' then some (c.toNat - 48 + 52)
  else if c = '+' ∨ c = '-' then some 62
  else if c = '/' ∨ c = '_' then some 63
  else none

/-- The sequence of 6-bit values of a base64 string, stopping at padding. -/
def base64Sextets : List Char → List Nat
  | [] => []
  | c :: cs =>
    if c = '=' then []
    else
      match base64CharVal c with
      | some v => v :: base64Sextets cs
      | none => base64Sextets cs

/-- Packs a stream of 6-bit values into bytes, dropping the trailing
partial byte, as base64 decoding does. -/
def sextetsToBytes : List Nat → Nat → Nat → List Nat
  | [], _, _ => []
  | v :: vs, acc, nbits =>
    if 8 ≤ nbits + 6 then
      ((acc * 64 + v) / 2 ^ (nbits - 2)) ::
        sextetsToBytes vs ((acc * 64 + v) % 2 ^ (nbits - 2)) (nbits - 2)
    else sextetsToBytes vs (acc * 64 + v) (nbits + 6)

/-- Models `Buffer.from(s, "base64").toString()` for ASCII payloads. -/
def base64DecodeString (s : String) : String :=
  String.mk ((sextetsToBytes (base64Sextets s.data) 0 0).map Char.ofNat)

/-- A JavaScript value as produced by `JSON.parse`: `null`, a boolean, a
number (carried by its literal), a string, an array, or an object. -/
inductive JsonValue where
  | null
  | bool (b : Bool)
  | num (lit : String)
  | str (s : String)
  | arr (elems : List JsonValue)
  | obj (members : List (String × JsonValue))

/-- Skips the JSON whitespace characters (space, tab, line feed, carriage
return) that `JSON.parse` accepts between tokens. -/
def skipJsonWs : List Char → List Char
  | [] => []
  | c :: cs =>
    if c = ' ' ∨ c = '\t' ∨ c = '\n' ∨ c = '\r' then skipJsonWs cs else c :: cs

/-- The value of one hexadecimal digit, for `\uXXXX` escapes. -/
def hexDigitVal (c : Char) : Option Nat :=
  if '0' ≤ c ∧ c ≤ '9' then some (c.toNat - 48)
  else if 'a' ≤ c ∧ c ≤ 'f' then some (c.toNat - 97 + 10)
  else if 'A' ≤ c ∧ c ≤ 'F' then some (c.toNat - 65 + 10)
  else none

/-- Whether a character is a decimal digit. -/
def isJsonDigit (c : Char) : Bool := '0' ≤ c ∧ c ≤ '9'

/-- Splits off the longest leading run of decimal digits. -/
def takeJsonDigits : List Char → List Char × List Char
  | [] => ([], [])
  | c :: cs =>
    if isJsonDigit c then
      let (ds, rest) := takeJsonDigits cs
      (c :: ds, rest)
    else ([], c :: cs)

/-- Parses the optional exponent of a JSON number literal, appending it to
the literal accumulated so far. -/
def parseJsonNumberExp (acc : List Char) (cs : List Char) :
    Option (List Char × List Char) :=
  match cs with
  | [] => some (acc, [])
  | c :: rest =>
    if c = 'e' ∨ c = 'E' then
      let (sgn, rest2) :=
        match rest with
        | s :: r2 => if s = '+' ∨ s = '-' then ([s], r2) else (([] : List Char), rest)
        | [] => ([], [])
      match takeJsonDigits rest2 with
      | ([], _) => none
      | (ds, rest3) => some (acc ++ c :: (sgn ++ ds), rest3)
    else some (acc, c :: rest)

/-- Parses the optional fraction of a JSON number literal, then the
exponent. -/
def parseJsonNumberFrac (acc : List Char) (cs : List Char) :
    Option (List Char × List Char) :=
  match cs with
  | '.' :: rest =>
    match takeJsonDigits rest with
    | ([], _) => none
    | (ds, rest2) => parseJsonNumberExp (acc ++ '.' :: ds) rest2
  | _ => parseJsonNumberExp acc cs

/-- Parses a JSON number literal per the JSON grammar
(`-? (0 | [1-9][0-9]*) frac? exp?`; leading zeros and a bare sign are
rejected, as `JSON.parse` rejects them). -/
def parseJsonNumber (cs : List Char) : Option (List Char × List Char) :=
  let (sign, cs1) :=
    match cs with
    | c :: rest => if c = '-' then ([c], rest) else (([] : List Char), cs)
    | [] => ([], [])
  match cs1 with
  | [] => none
  | c :: rest =>
    if c = '0' then parseJsonNumberFrac (sign ++ [c]) rest
    else if isJsonDigit c then
      let (ds, rest2) := takeJsonDigits rest
      parseJsonNumberFrac (sign ++ c :: ds) rest2
    else none

/-- Parses the body of a JSON string literal up to its closing quote,
resolving the escape sequences `\"` `\\` `\/` `\b` `\f` `\n` `\r` `\t` and
`\uXXXX` (surrogate pairs combined; a lone surrogate is not representable
as a `Char` and fails), and rejecting unescaped control characters as
`JSON.parse` does. -/
def parseJsonStringBody : Nat → List Char → Option (List Char × List Char)
  | 0, _ => none
  | fuel + 1, cs =>
    match cs with
    | [] => none
    | c :: rest =>
      if c = quoteChar then some ([], rest)
      else if c = '\\' then
        match rest with
        | [] => none
        | e :: rest2 =>
          if e = quoteChar ∨ e = '\\' ∨ e = '/' then
            (parseJsonStringBody fuel rest2).map (fun p => (e :: p.1, p.2))
          else if e = 'b' then
            (parseJsonStringBody fuel rest2).map (fun p => (Char.ofNat 8 :: p.1, p.2))
          else if e = 'f' then
            (parseJsonStringBody fuel rest2).map (fun p => (Char.ofNat 12 :: p.1, p.2))
          else if e = 'n' then
            (parseJsonStringBody fuel rest2).map (fun p => ('\n' :: p.1, p.2))
          else if e = 'r' then
            (parseJsonStringBody fuel rest2).map (fun p => ('\r' :: p.1, p.2))
          else if e = 't' then
            (parseJsonStringBody fuel rest2).map (fun p => ('\t' :: p.1, p.2))
          else if e = 'u' then
            match rest2 with
            | h1 :: h2 :: h3 :: h4 :: rest3 =>
              match hexDigitVal h1, hexDigitVal h2, hexDigitVal h3, hexDigitVal h4 with
              | some a, some b, some c3, some d =>
                let code := ((a * 16 + b) * 16 + c3) * 16 + d
                if 0xD800 ≤ code ∧ code ≤ 0xDBFF then
                  match rest3 with
                  | bs :: u2 :: g1 :: g2 :: g3 :: g4 :: rest4 =>
                    if bs = '\\' ∧ u2 = 'u' then
                      match hexDigitVal g1, hexDigitVal g2, hexDigitVal g3, hexDigitVal g4 with
                      | some a2, some b2, some c4, some d2 =>
                        let low := ((a2 * 16 + b2) * 16 + c4) * 16 + d2
                        if 0xDC00 ≤ low ∧ low ≤ 0xDFFF then
                          (parseJsonStringBody fuel rest4).map
                            (fun p =>
                              (Char.ofNat
                                  (0x10000 + (code - 0xD800) * 1024 + (low - 0xDC00)) :: p.1,
                                p.2))
                        else none
                      | _, _, _, _ => none
                    else none
                  | _ => none
                else if 0xDC00 ≤ code ∧ code ≤ 0xDFFF then none
                else
                  (parseJsonStringBody fuel rest3).map (fun p => (Char.ofNat code :: p.1, p.2))
              | _, _, _, _ => none
            | _ => none
          else none
      else if c.toNat < 32 then none
      else (parseJsonStringBody fuel rest).map (fun p => (c :: p.1, p.2))

mutual

/-- Parses one JSON value (after optional whitespace): a string, object,
array, `true`, `false`, `null`, or number. -/
def parseJsonValue : Nat → List Char → Option (JsonValue × List Char)
  | 0, _ => none
  | fuel + 1, cs =>
    match skipJsonWs cs with
    | [] => none
    | c :: rest =>
      if c = quoteChar then
        (parseJsonStringBody fuel rest).map (fun p => (.str (String.mk p.1), p.2))
      else if c = openBraceChar then
        match skipJsonWs rest with
        | [] => none
        | c2 :: rest2 =>
          if c2 = closeBraceChar then some (.obj [], rest2)
          else (parseJsonMembers fuel (c2 :: rest2)).map (fun p => (.obj p.1, p.2))
      else if c = '[' then
        match skipJsonWs rest with
        | [] => none
        | c2 :: rest2 =>
          if c2 = ']' then some (.arr [], rest2)
          else (parseJsonElems fuel (c2 :: rest2)).map (fun p => (.arr p.1, p.2))
      else if c = 't' then
        match rest with
        | 'r' :: 'u' :: 'e' :: rest2 => some (.bool true, rest2)
        | _ => none
      else if c = 'f' then
        match rest with
        | 'a' :: 'l' :: 's' :: 'e' :: rest2 => some (.bool false, rest2)
        | _ => none
      else if c = 'n' then
        match rest with
        | 'u' :: 'l' :: 'l' :: rest2 => some (.null, rest2)
        | _ => none
      else
        (parseJsonNumber (c :: rest)).map (fun p => (.num (String.mk p.1), p.2))

/-- Parses the members of a non-empty JSON object after its opening brace:
`"key": value` pairs separated by commas, up to the closing brace. -/
def parseJsonMembers : Nat → List Char → Option (List (String × JsonValue) × List Char)
  | 0, _ => none
  | fuel + 1, cs =>
    match cs with
    | [] => none
    | c :: cs1 =>
      if c = quoteChar then
        match parseJsonStringBody fuel cs1 with
        | none => none
        | some (key, rest1) =>
          match skipJsonWs rest1 with
          | ':' :: rest2 =>
            match parseJsonValue fuel rest2 with
            | none => none
            | some (v, rest3) =>
              match skipJsonWs rest3 with
              | [] => none
              | sep :: rest4 =>
                if sep = ',' then
                  (parseJsonMembers fuel (skipJsonWs rest4)).map
                    (fun p => ((String.mk key, v) :: p.1, p.2))
                else if sep = closeBraceChar then
                  some ([(String.mk key, v)], rest4)
                else none
          | _ => none
      else none

/-- Parses the elements of a non-empty JSON array after its opening
bracket, separated by commas, up to the closing bracket. -/
def parseJsonElems : Nat → List Char → Option (List JsonValue × List Char)
  | 0, _ => none
  | fuel + 1, cs =>
    match parseJsonValue fuel cs with
    | none => none
    | some (v, rest1) =>
      match skipJsonWs rest1 with
      | [] => none
      | sep :: rest2 =>
        if sep = ',' then
          (parseJsonElems fuel rest2).map (fun p => (v :: p.1, p.2))
        else if sep = ']' then some ([v], rest2)
        else none

end

/-- Models `JSON.parse(s)`: one JSON value covering the whole text up to
trailing whitespace; `none` is the thrown `SyntaxError` path.  The fuel
bounds the chain of nested parsing steps; each step consumes input, so
twice the length is always enough. -/
def parseJsonText (s : String) : Option JsonValue :=
  match parseJsonValue (2 * s.data.length + 2) s.data with
  | none => none
  | some (v, rest) => if skipJsonWs rest = [] then some v else none

/-- Whether a JSON number literal denotes zero: all mantissa digits are
zero (the sign and the exponent do not matter).  Floating-point underflow
of extreme exponents is not modelled. -/
def jsonNumberIsZero (lit : String) : Bool :=
  (lit.data.takeWhile (fun c => c ≠ 'e' ∧ c ≠ 'E')).all
    (fun c => c = '0' ∨ c = '.' ∨ c = '-')

/-- JavaScript truthiness of a `JSON.parse` result: `null`, `false`, zero
and the empty string are falsy; every other value (including `\x7b\x7d` and
`[]`) is truthy.  `NaN` cannot result from `JSON.parse`. -/
def JsonValue.isTruthy : JsonValue → Bool
  | .null => false
  | .bool b => b
  | .num lit => ! jsonNumberIsZero lit
  | .str s => s != ""
  | .arr _ => true
  | .obj _ => true

/-- JavaScript member access `v.key` on a `JSON.parse` result: a field of
an object (later duplicate keys win, as in JavaScript object
construction), a thrown `TypeError` on `null`, and `undefined` on every
other value. -/
def jsMemberAccess (v : JsonValue) (key : String) : Except Unit (Option JsonValue) :=
  match v with
  | .null => .error ()
  | .obj ms => .ok (ms.reverse.lookup key)
  | _ => .ok none

/-- Models the JavaScript expression `v.k1 || v.k2 || … || v.kn`: the first
truthy field value; when every field is falsy or absent, the value of the
last access (possibly `undefined`, i.e. `none`); `.error` when an access
throws (a `null` receiver). -/
def jsOrChainFields (v : JsonValue) : List String → Except Unit (Option JsonValue)
  | [] => .ok none
  | [k] => jsMemberAccess v k
  | k :: k2 :: ks =>
    match jsMemberAccess v k with
    | .error _ => .error ()
    | .ok (some x) => if x.isTruthy then .ok (some x) else jsOrChainFields v (k2 :: ks)
    | .ok none => jsOrChainFields v (k2 :: ks)

/-- The decode of the JWT payload segment inside `extractUserIdFromAuthInfo`
(outboundToken.ts lines 32-35): `token.split(".")[1]` (a missing segment
makes `Buffer.from` throw), base64-decoded and `JSON.parse`d; `none` is the
thrown path. -/
def decodeJwtPayload (token : String) : Option JsonValue :=
  match (jsSplit token '.')[1]? with
  | none => none
  | some seg => parseJsonText (base64DecodeString seg)

/-- `extractUserIdFromAuthInfo` (outboundToken.ts lines 30-48): on a decoded
payload, the value of `payload.sub || payload.userId || payload.user_id ||
payload.clientId` (possibly `undefined`); when decoding or the member
access throws (missing segment, unparseable JSON, or a `null` payload),
the `catch` falls back to the principal's `clientId`. -/
def extractUserIdFromAuthInfo (authInfo : AuthInfo) : Option JsonValue :=
  match decodeJwtPayload authInfo.token with
  | none => some (.str authInfo.clientId)
  | some payload =>
    match jsOrChainFields payload ["sub", "userId", "user_id", "clientId"] with
    | .error _ => some (.str authInfo.clientId)
    | .ok r => r

/-! ### Outbound token exchange (`src/utils/outboundToken.ts` and
`mcp-core/src/outbound.ts`) -/

/-- The value resolved by `fetchToken` / `fetchTokenByScopes`:
the `ok` flag and `data?.accessToken` (with `none` covering both a missing
`data` and a missing `accessToken`). -/
structure FetchResult where
  ok : Bool
  accessToken : Option String
  deriving DecidableEq, Repr

/-- Outcome of the authority exchange call: the client-creation/transport
path threw, or the call resolved with a result. -/
inductive FetchOutcome where
  | threw
  | returned (r : FetchResult)
  deriving DecidableEq, Repr

/-- The arguments of the one exchange call issued to the authority:
application id, subject identifier (a JavaScript value — a plain string
from the mcp-core exchange, a decoded payload value or the `clientId`
fallback string from the express exchange, with `none` standing for
`undefined`), and the requested scopes on the scoped path (`none` = the
unscoped `fetchToken` path). -/
structure ExchangeCall where
  appId : String
  subject : Option JsonValue
  scopes : Option (List String)

/-- `getOutboundToken` of the express package (outboundToken.ts lines
75-119): the subject is `extractUserIdFromAuthInfo(authInfo)`; the scoped
path is taken when `scopes && scopes.length > 0`; a thrown call, an
authority failure (`!result.ok`) and a missing/empty access token
(`result.data?.accessToken || null`) all resolve to `null`. The second
component is the call issued to the authority, if any. -/
def getOutboundToken (appId : String) (authInfo : AuthInfo)
    (config : DescopeMcpProviderOptions) (scopes : Option (List String))
    (outcome : FetchOutcome) : Option String × Option ExchangeCall :=
  let userId := extractUserIdFromAuthInfo authInfo
  let isScoped : Bool := match scopes with | some l => !l.isEmpty | none => false
  let call : ExchangeCall :=
    { appId := appId, subject := userId, scopes := if isScoped then scopes else none }
  match outcome with
  | .threw => (none, some call)
  | .returned r =>
    if r.ok then
      match r.accessToken with
      | some t => (if t = "" then none else some t, some call)
      | none => (none, some call)
    else (none, some call)

/-- The `AuthInfo` interface of `mcp-core/src/auth.ts`: unlike the express
record it carries a (required) `userId`. -/
structure CoreAuthInfo where
  token : String
  clientId : String
  userId : String
  scopes : List String
  expiresAt : Nat
  deriving DecidableEq, Repr

/-- `getOutboundToken` of `mcp-core/src/outbound.ts` (lines 31-70):
short-circuits to `null` without a call when `!authInfo?.token`; otherwise
issues one exchange call whose subject is `authInfo.userId` (scoped path
when `scopes?.length` is truthy) and resolves to `null` on a thrown call,
on `!result.ok`, and on a missing access token
(`result.data?.accessToken ?? null`). -/
def coreGetOutboundToken (appId : String) (authInfo : Option CoreAuthInfo)
    (scopes : Option (List String)) (outcome : FetchOutcome) :
    Option String × Option ExchangeCall :=
  match authInfo with
  | none => (none, none)
  | some a =>
    if a.token = "" then (none, none)
    else
      let isScoped : Bool := match scopes with | some l => !l.isEmpty | none => false
      let call : ExchangeCall :=
        { appId := appId, subject := some (.str a.userId)
          scopes := if isScoped then scopes else none }
      match outcome with
      | .threw => (none, some call)
      | .returned r =>
        if r.ok then (r.accessToken, some call)
        else (none, some call)

/-- `DescopeTokenManager.getOutboundToken` (mcp-core/src/outbound.ts lines
81-91): `null` without any authority contact when `authInfo` is absent,
else delegated to `getOutboundToken`. -/
def managerGetOutboundToken (authInfo : Option CoreAuthInfo) (appId : String)
    (scopes : Option (List String)) (outcome : FetchOutcome) :
    Option String × Option ExchangeCall :=
  match authInfo with
  | none => (none, none)
  | some a => coreGetOutboundToken appId (some a) scopes outcome

/-- The `getOutboundToken` closure handed to tool handlers by
`registerAuthenticatedTool` (utils.ts lines 196-199): resolves to `null`
without an exchange when the request context carries no provider
configuration. -/
def boundGetOutboundToken (descopeConfig : Option DescopeMcpProviderOptions)
    (authInfo : AuthInfo) (appId : String) (scopes : Option (List String))
    (outcome : FetchOutcome) : Option String × Option ExchangeCall :=
  match descopeConfig with
  | none => (none, none)
  | some cfg => getOutboundToken appId authInfo cfg scopes outcome

/-! ### Scope helpers (`mcp-core/src/scopes.ts`) -/

/-- The result object of `validateScopes`. -/
structure ScopeValidation where
  isValid : Bool
  error : Option String
  deriving DecidableEq, Repr

/-- `validateScopes` (scopes.ts lines 6-29). -/
def coreValidateScopes (authInfo : Option CoreAuthInfo)
    (requiredScopes : List String) : ScopeValidation :=
  match authInfo with
  | none => { isValid := false, error := some "No authentication info provided" }
  | some a =>
    if requiredScopes.isEmpty then { isValid := true, error := none }
    else
      let missing := requiredScopes.filter (fun s => ! a.scopes.contains s)
      if missing.isEmpty then { isValid := true, error := none }
      else
        { isValid := false
          error := some ("Missing required scopes: " ++ String.intercalate ", " missing ++
            ". User has scopes: " ++ userScopesDisplay a.scopes) }

/-- `hasScope` (scopes.ts lines 34-39):
`authInfo?.scopes?.includes(scope) || false`. -/
def coreHasScope (authInfo : Option CoreAuthInfo) (scope : String) : Bool :=
  match authInfo with
  | none => false
  | some a => a.scopes.contains scope

/-- `hasAnyScope` (scopes.ts lines 44-50):
`if (!authInfo || !scopes.length) return true` then `scopes.some(...)`. -/
def coreHasAnyScope (authInfo : Option CoreAuthInfo) (scopes : List String) : Bool :=
  match authInfo with
  | none => true
  | some a => if scopes.isEmpty then true else scopes.any (fun s => coreHasScope (some a) s)

/-- `hasAllScopes` (scopes.ts lines 55-61):
`if (!authInfo || !scopes.length) return true` then `scopes.every(...)`. -/
def coreHasAllScopes (authInfo : Option CoreAuthInfo) (scopes : List String) : Bool :=
  match authInfo with
  | none => true
  | some a => if scopes.isEmpty then true else scopes.all (fun s => coreHasScope (some a) s)

/-! ### Concrete example values used by the witnesses -/

/-- A validated session whose token carries only the `openid` scope. -/
def exSessionInfo : SessionAuthInfo :=
  { jwt := "jwt-1"
    token := { aud := some (.scalar "aud-1"), scope := some "openid"
               resource := none, azp := "client-1", exp := 1000 } }

/-- Options requiring the `openid` and `admin` scopes with audience `aud-1`. -/
def exScopeOpts : VerifyTokenOptions :=
  { audience := some "aud-1", requiredScopes := some ["openid", "admin"]
    resourceIndicator := none }

/-- A session violating the audience, the required scopes and the resource
indicator of `exMultiViolationOpts` at the same time. -/
def exMultiViolationInfo : SessionAuthInfo :=
  { jwt := "jwt-2"
    token := { aud := some (.scalar "aud-other"), scope := some "email"
               resource := some (.scalar "res-other"), azp := "client-2", exp := 1000 } }

/-- Options configuring the audience, required scopes and resource indicator. -/
def exMultiViolationOpts : VerifyTokenOptions :=
  { audience := some "aud-1", requiredScopes := some ["openid"]
    resourceIndicator := some "res-1" }

/-- The canonical principal produced from `exSessionInfo` with no checks
configured. -/
def exAuthInfo : AuthInfo :=
  { token := "jwt-1", clientId := "client-1", scopes := ["openid"], expiresAt := 1000 }

/-- A request carrying a well-formed bearer header and neither an `auth` nor
an `authInfo` property. -/
def exBearerRequest : Request :=
  { authorization := some "Bearer tok", auth := none, authInfo := none }

/-- The request after the middleware stored the principal on `auth`. -/
def exNextRequest : Request :=
  { authorization := some "Bearer tok", auth := some exAuthInfo, authInfo := none }

/-- A principal whose bearer token is a JWT with payload
`\x7b"sub":"user-123"\x7d` and whose `clientId` is `client-1`. -/
def exJwtAuthInfo : AuthInfo :=
  { token := "h.eyJzdWIiOiJ1c2VyLTEyMyJ9.s", clientId := "client-1"
    scopes := ["openid"], expiresAt := 1000 }

/-- A principal whose bearer token has no payload segment, so JWT decoding
throws and `extractUserIdFromAuthInfo` falls back to `clientId`. -/
def exOpaqueAuthInfo : AuthInfo :=
  { token := "abc", clientId := "client-2", scopes := [], expiresAt := 1000 }

/-- A principal whose bearer token is a realistic JWT with payload
`\x7b"sub":"u1","exp":1\x7d` — a numeric claim beside the subject. -/
def exRealisticJwtAuthInfo : AuthInfo :=
  { token := "h.eyJzdWIiOiJ1MSIsImV4cCI6MX0.s", clientId := "client-3"
    scopes := [], expiresAt := 1000 }

/-- An mcp-core principal. -/
def exCoreAuthInfo : CoreAuthInfo :=
  { token := "tok-a", clientId := "client-9", userId := "user-9"
    scopes := ["openid"], expiresAt := 1000 }

/-- A request context carrying only the `openid` scope. -/
def exContext : McpRequestContext :=
  { authInfo := exAuthInfo, descopeConfig := none }

end DescopeMcp

namespace DescopeMcp

/-! ## Claim theorems -/

/-- Claim C4: the outbound token exchange never throws to its caller — it is
a total function into `Option String` — and resolves to `null` on each
failure path: absent principal (the manager short-circuit), absent
configuration (the bound closure of the tool binder), a thrown
network/transport call, an authority-reported failure (`ok: false`), and a
success payload lacking an access token; shown for the mcp-core exchange and
the express exchange alike. -/
theorem outbound_exchange_failure_paths_null :
    (∀ appId scopes outcome,
      (managerGetOutboundToken none appId scopes outcome).1 = none) ∧
    (∀ a appId scopes outcome,
      (boundGetOutboundToken none a appId scopes outcome).1 = none) ∧
    (∀ appId a scopes,
      (coreGetOutboundToken appId a scopes .threw).1 = none) ∧
    (∀ appId a scopes t,
      (coreGetOutboundToken appId a scopes (.returned { ok := false, accessToken := t })).1 = none) ∧
    (∀ appId a scopes,
      (coreGetOutboundToken appId a scopes (.returned { ok := true, accessToken := none })).1 = none) ∧
    (∀ appId a cfg scopes,
      (getOutboundToken appId a cfg scopes .threw).1 = none) ∧
    (∀ appId a cfg scopes t,
      (getOutboundToken appId a cfg scopes (.returned { ok := false, accessToken := t })).1 = none) ∧
    (∀ appId a cfg scopes,
      (getOutboundToken appId a cfg scopes (.returned { ok := true, accessToken := none })).1 = none) := by
  refine ⟨fun _ _ _ => rfl, fun _ _ _ _ => rfl, ?_, ?_, ?_, ?_, ?_, ?_⟩
  all_goals
    intros appId a scopes
    first
      | (cases a with
          | none => rfl
          | some a => simp [coreGetOutboundToken]; split <;> rfl)
      | (intro t
         cases a with
          | none => rfl
          | some a => simp [coreGetOutboundToken]; split <;> rfl)
      | simp [getOutboundToken]

/-- Claim C5: calling the token manager's exchange with an absent principal
returns `null` and issues no exchange call to the authority. -/
theorem manager_absent_principal_short_circuits (appId : String)
    (scopes : Option (List String)) (outcome : FetchOutcome) :
    managerGetOutboundToken none appId scopes outcome = (none, none) := rfl

/-- Claim C8: after `attachRequestContext` the read on the same carrier
returns exactly the attached pair; a carrier never attached to reads
`undefined`; and attaching on one carrier leaves the read on every other
carrier unchanged, so no two carriers observe each other's context. -/
theorem request_context_isolation (heap : ServerHeap) (c c2 : Nat)
    (a : AuthInfo) (cfg : Option DescopeMcpProviderOptions) :
    getRequestContext (attachRequestContext heap c a cfg) c =
      some { authInfo := a, descopeConfig := cfg } ∧
    getRequestContext emptyServerHeap c = none ∧
    (c2 ≠ c →
      getRequestContext (attachRequestContext heap c a cfg) c2 =
        getRequestContext heap c2) := by
  refine ⟨?_, rfl, fun hne => ?_⟩
  · simp [getRequestContext, attachRequestContext]
  · simp [getRequestContext, attachRequestContext, hne]

/-- Witness for C8 at carriers 0 and 1 on the empty heap. -/
theorem request_context_isolation_witness :
    getRequestContext (attachRequestContext emptyServerHeap 0 exAuthInfo none) 0 =
      some { authInfo := exAuthInfo, descopeConfig := none } ∧
    getRequestContext (attachRequestContext emptyServerHeap 0 exAuthInfo none) 1 = none := by
  have h := request_context_isolation emptyServerHeap 0 1 exAuthInfo none
  have h2 := request_context_isolation emptyServerHeap 1 0 exAuthInfo none
  exact ⟨h.1, (h.2.2 (by decide)).trans h2.2.1⟩

/-- Claim C10: with an undefined auth info, `hasAnyScope` and `hasAllScopes`
return `true` on every non-empty scope list, even though `hasScope` returns
`false` for every single scope and `validateScopes` reports invalid. -/
theorem scope_helpers_accept_undefined_auth (scopes : List String)
    (hne : scopes ≠ []) :
    coreHasAnyScope none scopes = true ∧
    coreHasAllScopes none scopes = true ∧
    (∀ s, coreHasScope none s = false) ∧
    (coreValidateScopes none scopes).isValid = false :=
  ⟨rfl, rfl, fun _ => rfl, rfl⟩

/-- Helper: with a configured non-empty required-scope list of which some
scope is missing, `checkRequiredScopes` fails with exactly the missing
scopes and the caller's scopes. -/
theorem checkRequiredScopes_error (scopes required : List String)
    (opts : VerifyTokenOptions) (hreq : opts.requiredScopes = some required)
    (hrne : required ≠ []) (hmne : missingScopesOf required scopes ≠ []) :
    checkRequiredScopes scopes opts =
      .error (.insufficientScope (missingScopesOf required scopes) scopes) := by
  obtain ⟨r0, rs, hr⟩ := List.exists_cons_of_ne_nil hrne
  obtain ⟨m0, ms, hm⟩ := List.exists_cons_of_ne_nil hmne
  subst hr
  simp [checkRequiredScopes, hreq, hm]

/-- Helper: membership in the computed missing-scope list is exactly
membership in the required list without membership in the token's scopes. -/
theorem missingScopesOf_mem (required scopes : List String) (s : String) :
    s ∈ missingScopesOf required scopes ↔ (s ∈ required ∧ s ∉ scopes) := by
  simp [missingScopesOf]

/-- Claim C1: when the authority verified the token and the audience and
resource checks pass but the token's scope set does not include every
configured required scope, the gate fails with `InsufficientScopeError`
carrying exactly the required scopes that are missing, and `handleAuthError`
answers it with HTTP status 403, error code `insufficient_scope`, and a
description listing exactly those missing scopes. -/
theorem bearer_gate_insufficient_scope
    (info : SessionAuthInfo) (opts : VerifyTokenOptions) (required : List String)
    (hreq : opts.requiredScopes = some required)
    (haud : checkAudience info opts = .ok ())
    (hres : checkResource info opts = .ok ())
    (hmiss : ¬ ∀ s ∈ required, s ∈ parseScopeClaim info.token.scope) :
    verifyAccessToken (.ok info) opts =
      .error (.insufficientScope
        (missingScopesOf required (parseScopeClaim info.token.scope))
        (parseScopeClaim info.token.scope)) ∧
    handleAuthError (.insufficientScope
        (missingScopesOf required (parseScopeClaim info.token.scope))
        (parseScopeClaim info.token.scope)) =
      { status := 403
        wwwAuthenticateError := some "insufficient_scope"
        description := some (insufficientScopeMessage
          (missingScopesOf required (parseScopeClaim info.token.scope))
          (parseScopeClaim info.token.scope)) } ∧
    (∀ s, s ∈ missingScopesOf required (parseScopeClaim info.token.scope) ↔
      (s ∈ required ∧ s ∉ parseScopeClaim info.token.scope)) := by
  have hrne : required ≠ [] := by
    rintro rfl
    exact hmiss (by simp)
  have hmne : missingScopesOf required (parseScopeClaim info.token.scope) ≠ [] := by
    push_neg at hmiss
    obtain ⟨s, hs, hns⟩ := hmiss
    intro hnil
    have hsm := (missingScopesOf_mem required (parseScopeClaim info.token.scope) s).2 ⟨hs, hns⟩
    simp [hnil] at hsm
  have hcheck := checkRequiredScopes_error (parseScopeClaim info.token.scope)
    required opts hreq hrne hmne
  refine ⟨?_, rfl, missingScopesOf_mem required (parseScopeClaim info.token.scope)⟩
  simp [verifyAccessToken, haud, hcheck]

/-- Witness for C1: token scopes `["openid"]` against required scopes
`["openid", "admin"]` yield the insufficient-scope failure with missing
list exactly `["admin"]`, answered with status 403. -/
theorem bearer_gate_insufficient_scope_witness :
    verifyAccessToken (.ok exSessionInfo) exScopeOpts =
      .error (.insufficientScope ["admin"] ["openid"]) ∧
    (handleAuthError (.insufficientScope ["admin"] ["openid"])).status = 403 := by
  have h := bearer_gate_insufficient_scope exSessionInfo exScopeOpts
    ["openid", "admin"] rfl rfl rfl (by decide)
  have hm : missingScopesOf ["openid", "admin"]
      (parseScopeClaim exSessionInfo.token.scope) = ["admin"] := by decide
  have hs : parseScopeClaim exSessionInfo.token.scope = ["openid"] := by decide
  refine ⟨?_, ?_⟩
  · rw [h.1, hm, hs]
  · rw [show (handleAuthError (.insufficientScope ["admin"] ["openid"])).status = 403 from rfl]

/-- Claim C3: when several checks are violated at once, the reported failure
is that of the earliest check in source order: authority verification
(`InvalidToken`), then audience, then required scopes, then resource
indicator. -/
theorem bearer_gate_first_failing_check_wins :
    (∀ opts, verifyAccessToken .failed opts =
      .error (.invalidToken "Failed to validate token")) ∧
    (∀ info opts e, checkAudience info opts = .error e →
      verifyAccessToken (.ok info) opts = .error e) ∧
    (∀ info opts e, checkAudience info opts = .ok () →
      checkRequiredScopes (parseScopeClaim info.token.scope) opts = .error e →
      verifyAccessToken (.ok info) opts = .error e) ∧
    (∀ info opts e, checkAudience info opts = .ok () →
      checkRequiredScopes (parseScopeClaim info.token.scope) opts = .ok () →
      checkResource info opts = .error e →
      verifyAccessToken (.ok info) opts = .error e) := by
  refine ⟨fun _ => rfl, ?_, ?_, ?_⟩
  · intro info opts e h
    simp [verifyAccessToken, h]
  · intro info opts e h1 h2
    simp [verifyAccessToken, h1, h2]
  · intro info opts e h1 h2 h3
    simp [verifyAccessToken, h1, h2, h3]

/-- Witness for C3: a token that simultaneously violates audience, required
scopes and resource indicator is reported with the audience failure, the
earliest of the three. -/
theorem bearer_gate_first_failing_check_wins_witness :
    verifyAccessToken (.ok exMultiViolationInfo) exMultiViolationOpts =
      .error (.invalidToken "Invalid token audience. Expected: aud-1") ∧
    checkRequiredScopes (parseScopeClaim exMultiViolationInfo.token.scope)
      exMultiViolationOpts ≠ .ok () ∧
    checkResource exMultiViolationInfo exMultiViolationOpts ≠ .ok () := by
  refine ⟨?_, by decide, by decide⟩
  exact bearer_gate_first_failing_check_wins.2.1 exMultiViolationInfo
    exMultiViolationOpts (.invalidToken "Invalid token audience. Expected: aud-1")
    (by decide)

/-- Claim C9: a request with no `Authorization` header, or whose first
space-delimited segment is not case-insensitively `bearer`, or whose token
after the scheme is empty, is answered with status 401; the downstream
handler is not invoked (the result is a response, not `next`) and the
authority's `validateSession` is never called (second component `false`). -/
theorem bearer_middleware_rejects_bad_header
    (validate : String → ValidateOutcome) (opts : VerifyTokenOptions)
    (req : Request) :
    (req.authorization = none →
      descopeMcpBearerAuth validate opts req =
        (.respond (handleAuthError (.invalidToken "Missing Authorization header")), false) ∧
      (handleAuthError (.invalidToken "Missing Authorization header")).status = 401) ∧
    (∀ h, req.authorization = some h →
      (jsToLower ((jsSplit h ' ').headD "") ≠ "bearer" ∨ ((jsSplit h ' ')[1]?).getD "" = "") →
      descopeMcpBearerAuth validate opts req =
        (.respond (handleAuthError
          (.invalidToken "Invalid Authorization header format, expected 'Bearer TOKEN'")), false) ∧
      (handleAuthError
        (.invalidToken "Invalid Authorization header format, expected 'Bearer TOKEN'")).status
        = 401) := by
  constructor
  · intro hnone
    exact ⟨by simp [descopeMcpBearerAuth, hnone], rfl⟩
  · intro h hsome hbad
    refine ⟨?_, rfl⟩
    simp only [descopeMcpBearerAuth, hsome]
    rw [if_pos hbad]

/-- Witness for C9: the missing-header case and Scenario C
(header `"Token abc"`, wrong scheme) are both rejected with 401 and no
authority call. -/
theorem bearer_middleware_rejects_bad_header_witness :
    descopeMcpBearerAuth (fun _ => .ok exSessionInfo) {} { authorization := none } =
      (.respond (handleAuthError (.invalidToken "Missing Authorization header")), false) ∧
    descopeMcpBearerAuth (fun _ => .ok exSessionInfo) {}
        { authorization := some "Token abc" } =
      (.respond (handleAuthError
        (.invalidToken "Invalid Authorization header format, expected 'Bearer TOKEN'")), false) := by
  constructor
  · exact ((bearer_middleware_rejects_bad_header (fun _ => .ok exSessionInfo) {}
      { authorization := none }).1 rfl).1
  · exact ((bearer_middleware_rejects_bad_header (fun _ => .ok exSessionInfo) {}
      { authorization := some "Token abc" }).2 "Token abc" rfl (by decide)).1

/-- Helper: the missing-scope list is empty exactly when the token's scope
set includes every required scope. -/
theorem missingScopesOf_eq_nil (required scopes : List String) :
    missingScopesOf required scopes = [] ↔ ∀ s ∈ required, s ∈ scopes := by
  constructor
  · intro h s hs
    by_contra hns
    have hsm := (missingScopesOf_mem required scopes s).2 ⟨hs, hns⟩
    simp [h] at hsm
  · intro h
    rw [List.eq_nil_iff_forall_not_mem]
    intro s hsm
    obtain ⟨hs, hns⟩ := (missingScopesOf_mem required scopes s).1 hsm
    exact hns (h s hs)

/-- Claim C7: for a tool registered with a non-empty required-scope list, the
binder's pre-invocation scope check rejects exactly the (caller scopes,
required scopes) pairs the bearer gate's required-scope check rejects — a
scope set fails iff it does not include every required scope — the wrapped
handler is not invoked on rejection, and the rejection carries the same
diagnostic fields: the missing scopes and the caller's actual scopes. -/
theorem binder_scope_check_matches_gate {α : Type} (name : String)
    (required : List String) (ctx : McpRequestContext) (handlerResult : α)
    (hne : required ≠ []) :
    ((runAuthenticatedTool name required (some ctx) handlerResult).2 = false ↔
      checkRequiredScopes ctx.authInfo.scopes { requiredScopes := some required } ≠ .ok ()) ∧
    ((runAuthenticatedTool name required (some ctx) handlerResult).2 = false ↔
      ¬ ∀ s ∈ required, s ∈ ctx.authInfo.scopes) ∧
    (missingScopesOf required ctx.authInfo.scopes ≠ [] →
      runAuthenticatedTool name required (some ctx) handlerResult =
        (.error (.insufficientScope name required
          (missingScopesOf required ctx.authInfo.scopes) ctx.authInfo.scopes), false) ∧
      checkRequiredScopes ctx.authInfo.scopes { requiredScopes := some required } =
        .error (.insufficientScope (missingScopesOf required ctx.authInfo.scopes)
          ctx.authInfo.scopes)) := by
  obtain ⟨r0, rs, hr⟩ := List.exists_cons_of_ne_nil hne
  subst hr
  by_cases hm : missingScopesOf (r0 :: rs) ctx.authInfo.scopes = []
  · have hrun : runAuthenticatedTool name (r0 :: rs) (some ctx) handlerResult =
        (.ok handlerResult, true) := by
      simp [runAuthenticatedTool, hm]
    have hchk : checkRequiredScopes ctx.authInfo.scopes
        { requiredScopes := some (r0 :: rs) } = .ok () := by
      simp [checkRequiredScopes, hm]
    refine ⟨?_, ?_, fun hmm => absurd hm hmm⟩
    · rw [hrun, hchk]
      simp
    · rw [hrun]
      refine ⟨fun hc => absurd hc (by simp),
        fun hc => absurd ((missingScopesOf_eq_nil (r0 :: rs) ctx.authInfo.scopes).1 hm) hc⟩
  · obtain ⟨m0, ms, hmc⟩ := List.exists_cons_of_ne_nil hm
    have hrun : runAuthenticatedTool name (r0 :: rs) (some ctx) handlerResult =
        (.error (.insufficientScope name (r0 :: rs)
          (missingScopesOf (r0 :: rs) ctx.authInfo.scopes) ctx.authInfo.scopes), false) := by
      simp [runAuthenticatedTool, hmc]
    have hchk := checkRequiredScopes_error ctx.authInfo.scopes (r0 :: rs)
      { requiredScopes := some (r0 :: rs) } rfl (by simp) hm
    refine ⟨?_, ?_, fun _ => ⟨hrun, hchk⟩⟩
    · rw [hrun, hchk]
      simp
    · rw [hrun]
      exact ⟨fun _ hall => hm ((missingScopesOf_eq_nil (r0 :: rs) ctx.authInfo.scopes).2 hall),
        fun _ => rfl⟩

/-- Witness for C7: caller scopes `["openid"]` against required scopes
`["openid", "admin"]` are rejected by the binder without invoking the
handler, with the same missing list `["admin"]` and user scopes as the
gate's failure. -/
theorem binder_scope_check_matches_gate_witness :
    runAuthenticatedTool "status" ["openid", "admin"] (some exContext) (0 : Nat) =
      (.error (.insufficientScope "status" ["openid", "admin"] ["admin"] ["openid"]), false) ∧
    checkRequiredScopes ["openid"] { requiredScopes := some ["openid", "admin"] } =
      .error (.insufficientScope ["admin"] ["openid"]) := by
  have h := (binder_scope_check_matches_gate "status" ["openid", "admin"]
    exContext (0 : Nat) (by decide)).2.2 (by decide)
  have hm : missingScopesOf ["openid", "admin"] exContext.authInfo.scopes = ["admin"] := by
    decide
  constructor
  · rw [h.1, hm]
    rfl
  · have h2 := h.2
    rw [hm] at h2
    simpa [exContext, exAuthInfo] using h2

/-- Claim C2: the bearer middleware stores the verified principal on the
request property `auth`, while the MCP server handler attaches a request
context only when the distinct property `authInfo` is set; so a request that
passes the middleware and reaches the handler with nobody writing
`authInfo` yields a server whose context read is `undefined`, on which every
authenticated tool invocation fails with the authentication-required error
without invoking the handler. -/
theorem auth_property_mismatch_yields_auth_required {α : Type}
    (validate : String → ValidateOutcome) (opts : VerifyTokenOptions)
    (req req2 : Request) (called : Bool) (heap : ServerHeap) (server : Nat)
    (cfg : Option DescopeMcpProviderOptions) (name : String)
    (requiredScopes : List String) (handlerResult : α)
    (hfresh : heap server = none)
    (hnoauthinfo : req.authInfo = none)
    (hmw : descopeMcpBearerAuth validate opts req = (.next req2, called)) :
    (∃ a, req2.auth = some a) ∧
    req2.authInfo = none ∧
    getRequestContext (createMcpServerHandlerStep heap server req2 cfg) server = none ∧
    runAuthenticatedTool name requiredScopes
      (getRequestContext (createMcpServerHandlerStep heap server req2 cfg) server)
      handlerResult = (.error (.authRequired name), false) := by
  have hshape : ∃ info, req2 = { req with auth := some info } := by
    cases hra : req.authorization with
    | none =>
      simp [descopeMcpBearerAuth, hra] at hmw
    | some h =>
      simp only [descopeMcpBearerAuth, hra] at hmw
      split at hmw
      · simp at hmw
      · split at hmw
        · simp at hmw
        · rename_i info hv
          rw [Prod.mk.injEq] at hmw
          exact ⟨info, by
            have h1 := hmw.1
            rw [MiddlewareResult.next.injEq] at h1
            exact h1.symm⟩
  obtain ⟨info, rfl⟩ := hshape
  refine ⟨⟨info, rfl⟩, hnoauthinfo, ?_, ?_⟩
  · simp [createMcpServerHandlerStep, hnoauthinfo, getRequestContext, hfresh]
  · simp [createMcpServerHandlerStep, hnoauthinfo, getRequestContext, hfresh,
      runAuthenticatedTool]

/-- Witness for C2: a well-formed bearer request whose token validates
cleanly still leaves the fresh server without a context, and a tool
invocation on it fails with the authentication-required error. -/
theorem auth_property_mismatch_yields_auth_required_witness :
    getRequestContext (createMcpServerHandlerStep emptyServerHeap 0 exNextRequest none) 0 =
      none ∧
    runAuthenticatedTool "status" ["openid"]
      (getRequestContext (createMcpServerHandlerStep emptyServerHeap 0 exNextRequest none) 0)
      (0 : Nat) = (.error (.authRequired "status"), false) := by
  have h := auth_property_mismatch_yields_auth_required (fun _ => .ok exSessionInfo)
    {} exBearerRequest exNextRequest true emptyServerHeap 0 none "status" ["openid"]
    (0 : Nat) rfl rfl (by decide)
  exact ⟨h.2.2.1, h.2.2.2⟩

/-- Helper: the truthiness chain over field accesses throws only on a
`null` receiver. -/
theorem jsOrChainFields_error_iff_null (payload : JsonValue) (ks : List String)
    (h : jsOrChainFields payload ks = .error ()) : payload = .null := by
  induction ks with
  | nil => simp [jsOrChainFields] at h
  | cons k ks ih =>
    cases ks with
    | nil =>
      cases payload <;> first | rfl | simp [jsOrChainFields, jsMemberAccess] at h
    | cons k2 ks2 =>
      cases hm : jsMemberAccess payload k with
      | error u =>
        cases payload <;> first | rfl | simp [jsMemberAccess] at hm
      | ok r2 =>
        simp only [jsOrChainFields, hm] at h
        cases r2 with
        | none => exact ih h
        | some x =>
          by_cases ht : x.isTruthy
          · simp [ht] at h
          · simp only [ht, Bool.false_eq_true, if_false] at h
            exact ih h

/-- Claim C6 counterexample: the express outbound exchange at a principal
whose bearer JWT payload is `\x7b"sub":"user-123"\x7d` and whose `clientId`
is `client-1` passes the subject string `user-123` to the authority — the
express principal record has no `userId` field at all, and the subject
passed is not the principal's `clientId` either, contradicting the claim
that the subject is the principal's `userId` when present and its
`clientId` otherwise. -/
theorem outbound_subject_not_principal_field :
    (getOutboundToken "app-1" exJwtAuthInfo { projectId := "p1" } none
        (.returned { ok := true, accessToken := some "tok-1" })).2 =
      some { appId := "app-1", subject := some (.str "user-123"), scopes := none } ∧
    exJwtAuthInfo.clientId = "client-1" ∧
    JsonValue.str "user-123" ≠ JsonValue.str "client-1" := by
  refine ⟨rfl, rfl, ?_⟩
  intro h
  injection h with h2
  exact absurd h2 (by decide)

/-- Claim C6 amended: the mcp-core exchange passes the principal's `userId`
as the subject of every exchange call it issues; the express exchange
passes the value of `payload.sub || payload.userId || payload.user_id ||
payload.clientId` over the decoded bearer JWT payload, and that value is
the principal's `clientId` exactly on the `catch` path — a missing payload
segment, JSON that does not parse, or a `null` payload (the only value on
which the member access throws). -/
theorem outbound_subject_amended :
    (∀ appId a scopes outcome call,
      (coreGetOutboundToken appId (some a) scopes outcome).2 = some call →
      call.subject = some (.str a.userId)) ∧
    (∀ appId a cfg scopes outcome call,
      (getOutboundToken appId a cfg scopes outcome).2 = some call →
      call.subject = extractUserIdFromAuthInfo a) ∧
    (∀ a : AuthInfo, decodeJwtPayload a.token = none →
      extractUserIdFromAuthInfo a = some (.str a.clientId)) ∧
    (∀ a : AuthInfo, decodeJwtPayload a.token = some .null →
      extractUserIdFromAuthInfo a = some (.str a.clientId)) ∧
    (∀ (a : AuthInfo) (payload : JsonValue) (r : Option JsonValue),
      decodeJwtPayload a.token = some payload →
      jsOrChainFields payload ["sub", "userId", "user_id", "clientId"] = .ok r →
      extractUserIdFromAuthInfo a = r) ∧
    (∀ (payload : JsonValue) (ks : List String),
      jsOrChainFields payload ks = .error () → payload = .null) := by
  refine ⟨?_, ?_, ?_, ?_, ?_, jsOrChainFields_error_iff_null⟩
  · intro appId a scopes outcome call h
    by_cases ht : a.token = ""
    · simp [coreGetOutboundToken, ht] at h
    · cases outcome with
      | threw =>
        simp [coreGetOutboundToken, ht] at h
        cases h
        rfl
      | returned r =>
        by_cases hok : r.ok <;> simp [coreGetOutboundToken, ht, hok] at h <;>
          (cases h; rfl)
  · intro appId a cfg scopes outcome call h
    cases outcome with
    | threw =>
      simp [getOutboundToken] at h
      cases h
      rfl
    | returned r =>
      by_cases hok : r.ok
      · cases hat : r.accessToken with
        | none =>
          simp [getOutboundToken, hok, hat] at h
          cases h
          rfl
        | some t =>
          simp [getOutboundToken, hok, hat] at h
          cases h
          rfl
      · simp [getOutboundToken, hok] at h
        cases h
        rfl
  · intro a h
    simp [extractUserIdFromAuthInfo, h]
  · intro a h
    simp [extractUserIdFromAuthInfo, h, jsOrChainFields, jsMemberAccess]
  · intro a payload r h1 h2
    simp [extractUserIdFromAuthInfo, h1, h2]

/-- Witness for the amended C6: the mcp-core exchange passes the concrete
principal's `userId`; the express extraction on an opaque (non-JWT) token
falls back to the principal's `clientId`; and on a realistic payload
`\x7b"sub":"u1","exp":1\x7d` — a numeric claim beside the subject — it
decodes the payload and passes its `sub` value. -/
theorem outbound_subject_amended_witness :
    ExchangeCall.subject
      { appId := "app-1", subject := some (.str "user-9"), scopes := none } =
        some (.str "user-9") ∧
    extractUserIdFromAuthInfo exOpaqueAuthInfo = some (.str "client-2") ∧
    extractUserIdFromAuthInfo exRealisticJwtAuthInfo = some (.str "u1") := by
  refine ⟨?_, ?_, ?_⟩
  · exact outbound_subject_amended.1 "app-1" exCoreAuthInfo none .threw
      { appId := "app-1", subject := some (.str "user-9"), scopes := none } rfl
  · have h := outbound_subject_amended.2.2.1 exOpaqueAuthInfo rfl
    simpa [exOpaqueAuthInfo] using h
  · exact outbound_subject_amended.2.2.2.2.1 exRealisticJwtAuthInfo
      (.obj [("sub", .str "u1"), ("exp", .num "1")]) (some (.str "u1")) rfl rfl

/-- Witness for C10 on the scope list `["openid"]`. -/
theorem scope_helpers_accept_undefined_auth_witness :
    coreHasAnyScope none ["openid"] = true ∧
    coreHasAllScopes none ["openid"] = true ∧
    (∀ s, coreHasScope none s = false) ∧
    (coreValidateScopes none ["openid"]).isValid = false :=
  scope_helpers_accept_undefined_auth ["openid"] (by decide)

end DescopeMcp
